import Mathlib

/-!
Shallow embedding of the Calcu balances ledger (repository
`calcu-blockchain-network`, pallet `cstrml/balances`).

The repository sources contain only the benchmarking harness
(`src/cstrml/balances/src/benchmarking.rs`); the balance-mutation
operations it exercises (`transfer`, `transfer_keep_alive`,
`force_transfer`, `set_balance`) are not part of the sources, so they
are modelled from the specification (spec.md, sections 3-7): balances
are unsigned integers modelled as `Nat` with an explicit maximum value
for the overflow failure path, the account store is a map from account
identifier to an optional balance record, and each operation either
returns the mutated store or an error leaving the caller's store
untouched (the spec's all-or-nothing failure semantics).
-/

namespace CalcuBalances

/-- Modelled from the spec: `BalanceRecord` (section 3, DATA MODEL).
`free` is the spendable balance and `reserved` the locked balance.
Existence of a record for an id is the definition of account existence. -/
structure BalanceRecord where
  free : Nat
  reserved : Nat
deriving DecidableEq

/-- Account identifiers are opaque with decidable equality; we model them
as naturals. -/
abbrev AccountId := Nat

/-- Modelled from the spec: `AccountStore` (section 4.1), a mapping from
account identifier to balance record; `none` means the account does not
exist (and reads as zero balance). -/
abbrev Store := AccountId → Option BalanceRecord

/-- Ledger configuration: the system-wide `ExistentialDeposit` constant
(section 3) and the maximum representable `Balance` value (the model of
`Balance::max_value()`). -/
structure Config where
  existentialDeposit : Nat
  maxBalance : Nat
deriving DecidableEq

/-- Modelled from the spec: error kinds (section 7, ERROR HANDLING). -/
inductive Error where
  | InsufficientBalance
  | ExistentialDeposit
  | KeepAlive
  | Overflow
deriving DecidableEq

/-- Modelled from the spec: AccountStore `set` (section 4.1). -/
def setRecord (s : Store) (id : AccountId) (r : BalanceRecord) : Store :=
  fun j => if j = id then some r else s j

/-- Modelled from the spec: AccountStore `remove` (section 4.1). -/
def removeRecord (s : Store) (id : AccountId) : Store :=
  fun j => if j = id then none else s j

/-- Modelled from the spec: the `free_balance` query (section 6); returns
`0` for nonexistent accounts. -/
def free_balance (s : Store) (id : AccountId) : Nat :=
  match s id with
  | none => 0
  | some r => r.free

/-- Modelled from the spec: the `reserved_balance` query (section 6);
returns `0` for nonexistent accounts. -/
def reserved_balance (s : Store) (id : AccountId) : Nat :=
  match s id with
  | none => 0
  | some r => r.reserved

/-- Modelled from the spec: the outcome type of `LedgerInvariants.evaluate`
(section 4.2). -/
inductive Outcome where
  | Keep (r : BalanceRecord)
  | Reap
deriving DecidableEq

/-- Modelled from the spec: `LedgerInvariants.evaluate` (section 4.2): an
account whose total balance falls below the existential deposit is reaped
(its record removed, residual balance destroyed). -/
def evaluate (ed : Nat) (r : BalanceRecord) : Outcome :=
  if r.free + r.reserved < ed then .Reap else .Keep r

/-- Run `LedgerInvariants` on one account after a mutation (section 4.2:
the evaluation runs exactly once, on the post-mutation record). -/
def applyInvariants (ed : Nat) (s : Store) (id : AccountId) : Store :=
  match s id with
  | none => s
  | some r =>
    match evaluate ed r with
    | .Keep r2 => setRecord s id r2
    | .Reap => removeRecord s id

/-- The committed mutation phase shared by all transfer flavours (section
4.3): debit the origin, credit the destination (creating its record if
absent), then run `LedgerInvariants` on the origin.  All validation has
already succeeded when this runs. -/
def creditDebit (c : Config) (s : Store) (origin dest : AccountId)
    (src : BalanceRecord) (amount : Nat) : Store :=
  let s1 := setRecord s origin { src with free := src.free - amount }
  let dr := (s1 dest).getD { free := 0, reserved := 0 }
  let s2 := setRecord s1 dest { dr with free := dr.free + amount }
  applyInvariants c.existentialDeposit s2 origin

/-- Modelled from the spec: `TransferEngine.transfer` (section 4.3).
Zero transfers are a no-op that still succeeds (section 4.3 edge cases);
a debit exceeding the free balance fails with `InsufficientBalance`; a
credit that would create a new account below the existential deposit
fails with `ExistentialDeposit`; a credit exceeding the maximum balance
fails with `Overflow`.  Validation completes before any mutation is
committed (section 7), so on error the caller's store is unchanged. -/
def transfer (c : Config) (s : Store) (origin dest : AccountId)
    (amount : Nat) : Except Error Store :=
  if amount = 0 then .ok s
  else
    match s origin with
    | none => .error .InsufficientBalance
    | some src =>
      if src.free < amount then .error .InsufficientBalance
      else if (s dest).isNone ∧ amount < c.existentialDeposit then
        .error .ExistentialDeposit
      else if c.maxBalance < free_balance s dest + amount then
        .error .Overflow
      else .ok (creditDebit c s origin dest src amount)

/-- Modelled from the spec: `TransferEngine.transfer_keep_alive` (section
4.3): identical to `transfer`, but fails with `KeepAlive` up front when
the debit would leave the origin's account below the existential deposit
(reaping the sender is disallowed). -/
def transfer_keep_alive (c : Config) (s : Store) (origin dest : AccountId)
    (amount : Nat) : Except Error Store :=
  if amount = 0 then .ok s
  else
    match s origin with
    | none => .error .InsufficientBalance
    | some src =>
      if src.free < amount then .error .InsufficientBalance
      else if src.free - amount + src.reserved < c.existentialDeposit then
        .error .KeepAlive
      else if (s dest).isNone ∧ amount < c.existentialDeposit then
        .error .ExistentialDeposit
      else if c.maxBalance < free_balance s dest + amount then
        .error .Overflow
      else .ok (creditDebit c s origin dest src amount)

/-- Modelled from the spec: `TransferEngine.force_transfer` (section 4.3):
authorization is the host's concern; the arithmetic and invariant
semantics are identical to `transfer`. -/
def force_transfer (c : Config) (s : Store) (source dest : AccountId)
    (amount : Nat) : Except Error Store :=
  transfer c s source dest amount

/-- Modelled from the spec: `AdminOverride.set_balance` (section 4.4):
unconditionally overwrite the record with the requested split, then run
`LedgerInvariants`, which reaps the account when the requested total is
below the existential deposit. -/
def set_balance (c : Config) (s : Store) (who : AccountId)
    (new_free new_reserved : Nat) : Except Error Store :=
  let s1 := setRecord s who { free := new_free, reserved := new_reserved }
  .ok (applyInvariants c.existentialDeposit s1 who)

/-- The store observable after an operation: the new store on success, the
unchanged input store on failure (section 7: failed operations leave all
balances unchanged). -/
def resultState (s : Store) (r : Except Error Store) : Store :=
  match r with
  | .ok s2 => s2
  | .error _ => s

/-- Invariant I2 (section 3): no record exists with total balance below
the existential deposit. -/
def InvariantHolds (c : Config) (s : Store) : Prop :=
  ∀ id r, s id = some r → c.existentialDeposit ≤ r.free + r.reserved

/-- A concrete configuration used for concrete checks: existential deposit
10, maximum balance 1000000. -/
def cfgW : Config := { existentialDeposit := 10, maxBalance := 1000000 }

/-- A concrete store where only account 1 exists, with 100 free. -/
def stOne : Store := fun j => if j = 1 then some ⟨100, 0⟩ else none

/-- A concrete store where every account exists with 100 free. -/
def stAll : Store := fun _ => some ⟨100, 0⟩

/-- The empty store: no account exists. -/
def stEmpty : Store := fun _ => none

/-- The benchmark `transfer_best_case` setup: account 1 holds the maximum
balance, account 2 holds exactly the existential deposit. -/
def stBest : Store :=
  fun j => if j = 1 then some ⟨1000000, 0⟩
    else if j = 2 then some ⟨10, 0⟩ else none

/-- Reading through `setRecord`. -/
theorem setRecord_apply (s : Store) (i j : AccountId) (r : BalanceRecord) :
    setRecord s i r j = if j = i then some r else s j := rfl

/-- Reading through `removeRecord`. -/
theorem removeRecord_apply (s : Store) (i j : AccountId) :
    removeRecord s i j = if j = i then none else s j := rfl

/-- When the post-mutation record meets the existential deposit,
`LedgerInvariants` keeps it. -/
theorem applyInvariants_keep (ed : Nat) (s : Store) (id : AccountId)
    (r : BalanceRecord) (hr : s id = some r)
    (hge : ed ≤ r.free + r.reserved) :
    applyInvariants ed s id = setRecord s id r := by
  unfold applyInvariants evaluate
  rw [hr]
  simp [Nat.not_lt.mpr hge]

/-- When the post-mutation record is below the existential deposit,
`LedgerInvariants` reaps the account. -/
theorem applyInvariants_reap (ed : Nat) (s : Store) (id : AccountId)
    (r : BalanceRecord) (hr : s id = some r)
    (hlt : r.free + r.reserved < ed) :
    applyInvariants ed s id = removeRecord s id := by
  unfold applyInvariants evaluate
  rw [hr]
  simp [hlt]

/-- Zero transfers reduce to the no-op success branch. -/
theorem transfer_zero_eq (c : Config) (s : Store) (a b : AccountId) :
    transfer c s a b 0 = .ok s := rfl

/-- Reading the free balance of an existing account. -/
theorem free_balance_eq (s : Store) (id : AccountId) (r : BalanceRecord)
    (h : s id = some r) : free_balance s id = r.free := by
  unfold free_balance
  rw [h]

/-- Reading the free balance of a nonexistent account. -/
theorem free_balance_none (s : Store) (id : AccountId)
    (h : s id = none) : free_balance s id = 0 := by
  unfold free_balance
  rw [h]

/-- The free field of the defaulted record read in `creditDebit` is the
`free_balance` query. -/
theorem getD_free (s : Store) (id : AccountId) :
    ((s id).getD { free := 0, reserved := 0 }).free = free_balance s id := by
  unfold free_balance
  cases s id <;> rfl

/-- Pointwise description of `applyInvariants`. -/
theorem applyInvariants_apply (ed : Nat) (s : Store) (id j : AccountId) :
    applyInvariants ed s id j =
      match s id with
      | none => s j
      | some r =>
        if r.free + r.reserved < ed then
          if j = id then none else s j
        else if j = id then some r else s j := by
  unfold applyInvariants evaluate
  cases s id with
  | none => rfl
  | some r =>
    by_cases hlt : r.free + r.reserved < ed <;>
      simp [hlt, setRecord, removeRecord]

/-- Pointwise description of the committed mutation phase when origin and
destination are distinct accounts. -/
theorem creditDebit_apply (c : Config) (s : Store) (a b : AccountId)
    (src : BalanceRecord) (amt : Nat) (hab : a ≠ b) (j : AccountId) :
    creditDebit c s a b src amt j =
      if j = a then
        (if src.free - amt + src.reserved < c.existentialDeposit then none
         else some { free := src.free - amt, reserved := src.reserved })
      else if j = b then
        some { free := ((s b).getD { free := 0, reserved := 0 }).free + amt,
               reserved :=
                 ((s b).getD { free := 0, reserved := 0 }).reserved }
      else s j := by
  have hba : ¬ b = a := Ne.symm hab
  by_cases hja : j = a
  · subst hja
    simp [creditDebit, applyInvariants_apply, setRecord, hab, hba]
  · by_cases hjb : j = b
    · subst hjb
      simp [creditDebit, applyInvariants_apply, setRecord, hab, hba, hja]
    · simp [creditDebit, applyInvariants_apply, setRecord, hab, hba, hja,
        hjb]

/-- Pointwise description of the committed mutation phase when origin and
destination coincide: the debit and the credit cancel. -/
theorem creditDebit_apply_self (c : Config) (s : Store) (a : AccountId)
    (src : BalanceRecord) (amt : Nat) (hle : amt ≤ src.free)
    (j : AccountId) :
    creditDebit c s a a src amt j =
      if j = a then
        (if src.free + src.reserved < c.existentialDeposit then none
         else some { free := src.free, reserved := src.reserved })
      else s j := by
  have hc : src.free - amt + amt = src.free := Nat.sub_add_cancel hle
  by_cases hja : j = a
  · subst hja
    simp [creditDebit, applyInvariants_apply, setRecord, hc]
  · simp [creditDebit, applyInvariants_apply, setRecord, hja, hc]

/-- Inversion of a successful nonzero `transfer`: all validation passed
and the result is the committed mutation. -/
theorem transfer_ok_inv (c : Config) (s : Store) (a b : AccountId)
    (amt : Nat) (s' : Store) (hz : amt ≠ 0)
    (h : transfer c s a b amt = .ok s') :
    ∃ src, s a = some src ∧ amt ≤ src.free ∧
      (s b = none → c.existentialDeposit ≤ amt) ∧
      free_balance s b + amt ≤ c.maxBalance ∧
      s' = creditDebit c s a b src amt := by
  unfold transfer at h
  rw [if_neg hz] at h
  split at h
  · exact absurd h (by simp)
  · rename_i src hsa
    split at h
    · exact absurd h (by simp)
    · rename_i hfree
      split at h
      · exact absurd h (by simp)
      · rename_i hdest
        split at h
        · exact absurd h (by simp)
        · rename_i hovf
          refine ⟨src, hsa, by omega, ?_, by omega, (Except.ok.inj h).symm⟩
          intro hb
          by_contra hcon
          exact hdest ⟨by rw [hb]; rfl, by omega⟩

/-- A nonzero `transfer` whose validation conditions hold succeeds and
returns the committed mutation. -/
theorem transfer_ok_eq (c : Config) (s : Store) (a b : AccountId)
    (amt : Nat) (src : BalanceRecord) (hz : amt ≠ 0) (hsa : s a = some src)
    (hfree : amt ≤ src.free)
    (hdest : s b = none → c.existentialDeposit ≤ amt)
    (hovf : free_balance s b + amt ≤ c.maxBalance) :
    transfer c s a b amt = .ok (creditDebit c s a b src amt) := by
  have hd : ¬ ((s b).isNone = true ∧ amt < c.existentialDeposit) := by
    rintro ⟨h1, h2⟩
    cases hsb : s b with
    | none => exact absurd (hdest hsb) (by omega)
    | some d => simp [hsb] at h1
  unfold transfer
  rw [if_neg hz, hsa]
  show (if src.free < amt then _ else _) = _
  rw [if_neg (by omega : ¬ src.free < amt), if_neg hd,
    if_neg (by omega : ¬ c.maxBalance < free_balance s b + amt)]

/-- C9: for every pair of accounts — also when the destination has no
record — transferring zero succeeds and returns the unchanged store, so
no balance changes. -/
theorem transfer_zero_noop (c : Config) (s : Store) (a b : AccountId) :
    transfer c s a b 0 = .ok s := rfl

/-- C2: whenever `transfer`, `transfer_keep_alive`, `force_transfer` or
`set_balance` returns an error, the observable store is exactly the store
before the call: no partial debit or credit survives a failure. -/
theorem failed_ops_leave_state_unchanged (c : Config) (s : Store)
    (a b : AccountId) (amt nf nr : Nat) :
    (∀ e, transfer c s a b amt = .error e →
      resultState s (transfer c s a b amt) = s) ∧
    (∀ e, transfer_keep_alive c s a b amt = .error e →
      resultState s (transfer_keep_alive c s a b amt) = s) ∧
    (∀ e, force_transfer c s a b amt = .error e →
      resultState s (force_transfer c s a b amt) = s) ∧
    (∀ e, set_balance c s a nf nr = .error e →
      resultState s (set_balance c s a nf nr) = s) := by
  refine ⟨fun e h => ?_, fun e h => ?_, fun e h => ?_, fun e h => ?_⟩ <;>
    (rw [h]; rfl)

/-- Witness for C2 at a concrete failing input: transferring from an
account that does not exist fails and leaves the empty store unchanged. -/
theorem failed_ops_leave_state_unchanged_check :
    resultState stEmpty (transfer cfgW stEmpty 1 2 5) = stEmpty :=
  (failed_ops_leave_state_unchanged cfgW stEmpty 1 2 5 0 0).1
    .InsufficientBalance rfl

/-- C7: a debit exceeding the free balance always fails with
`InsufficientBalance` — for every transfer flavour — and changes nothing;
subtraction of the amount from the free balance is therefore always
guarded and can never wrap below zero. -/
theorem debit_exceeding_free_fails (c : Config) (s : Store)
    (a b : AccountId) (amt : Nat) (h : free_balance s a < amt) :
    transfer c s a b amt = .error .InsufficientBalance ∧
    transfer_keep_alive c s a b amt = .error .InsufficientBalance ∧
    force_transfer c s a b amt = .error .InsufficientBalance ∧
    resultState s (transfer c s a b amt) = s := by
  have hz : ¬ amt = 0 := by omega
  have h1 : transfer c s a b amt = .error .InsufficientBalance := by
    unfold transfer
    rw [if_neg hz]
    cases hsa : s a with
    | none => rfl
    | some src =>
      have hlt : src.free < amt := by
        unfold free_balance at h
        rw [hsa] at h
        exact h
      simp [hlt]
  have h2 : transfer_keep_alive c s a b amt = .error .InsufficientBalance := by
    unfold transfer_keep_alive
    rw [if_neg hz]
    cases hsa : s a with
    | none => rfl
    | some src =>
      have hlt : src.free < amt := by
        unfold free_balance at h
        rw [hsa] at h
        exact h
      simp [hlt]
  exact ⟨h1, h2, h1, by rw [h1]; rfl⟩

/-- Witness for C7 at a concrete input: account 3 has free balance 0 in
the empty store, so a debit of 7 fails with `InsufficientBalance` in all
transfer flavours and the store is untouched. -/
theorem debit_exceeding_free_fails_check :
    transfer cfgW stEmpty 3 4 7 = .error .InsufficientBalance ∧
    transfer_keep_alive cfgW stEmpty 3 4 7 = .error .InsufficientBalance ∧
    force_transfer cfgW stEmpty 3 4 7 = .error .InsufficientBalance ∧
    resultState stEmpty (transfer cfgW stEmpty 3 4 7) = stEmpty :=
  debit_exceeding_free_fails cfgW stEmpty 3 4 7 (by decide)

/-- Full description of `set_balance`: it always succeeds; the account
ends with exactly the requested split when the requested total meets the
existential deposit and is reaped otherwise; no other account changes. -/
theorem set_balance_result (c : Config) (s : Store) (who : AccountId)
    (nf nr : Nat) :
    ∃ s', set_balance c s who nf nr = .ok s' ∧
      (c.existentialDeposit ≤ nf + nr →
        s' who = some { free := nf, reserved := nr }) ∧
      (nf + nr < c.existentialDeposit → s' who = none) ∧
      (∀ j, j ≠ who → s' j = s j) := by
  by_cases hlt : nf + nr < c.existentialDeposit
  · refine ⟨removeRecord (setRecord s who ⟨nf, nr⟩) who, ?_, ?_, ?_, ?_⟩
    · show Except.ok (applyInvariants c.existentialDeposit
        (setRecord s who ⟨nf, nr⟩) who) = _
      rw [applyInvariants_reap c.existentialDeposit _ who ⟨nf, nr⟩
        (by simp [setRecord]) hlt]
    · intro hge
      omega
    · intro _
      simp [removeRecord]
    · intro j hj
      simp [removeRecord, setRecord, hj]
  · refine ⟨setRecord (setRecord s who ⟨nf, nr⟩) who ⟨nf, nr⟩, ?_, ?_, ?_, ?_⟩
    · show Except.ok (applyInvariants c.existentialDeposit
        (setRecord s who ⟨nf, nr⟩) who) = _
      rw [applyInvariants_keep c.existentialDeposit _ who ⟨nf, nr⟩
        (by simp [setRecord]) (Nat.not_lt.mp hlt)]
    · intro _
      simp [setRecord]
    · intro hge
      omega
    · intro j hj
      simp [setRecord, hj]

/-- C8: `set_balance` always succeeds; when the requested total meets the
existential deposit the account afterwards holds exactly the requested
split (regardless of its prior record), when it is below the threshold
the account does not exist afterwards; no other account is touched. -/
theorem set_balance_spec (c : Config) (s : Store) (who : AccountId)
    (nf nr : Nat) :
    ∃ s', set_balance c s who nf nr = .ok s' ∧
      (c.existentialDeposit ≤ nf + nr →
        s' who = some { free := nf, reserved := nr }) ∧
      (nf + nr < c.existentialDeposit → s' who = none) ∧
      (∀ j, j ≠ who → s' j = s j) :=
  set_balance_result c s who nf nr

/-- Witness for C8 at a concrete input: the spec's privileged-create
scenario, `set_balance(root, U, 50, 50)` with existential deposit 10,
leaves U existing with free 50 and reserved 50. -/
theorem set_balance_spec_check :
    ∃ s', set_balance cfgW stEmpty 5 50 50 = .ok s' ∧
      s' 5 = some { free := 50, reserved := 50 } := by
  obtain ⟨s', h1, h2, -, -⟩ := set_balance_spec cfgW stEmpty 5 50 50
  exact ⟨s', h1, h2 (by decide)⟩

/-- Counterexample to C6 as stated: account 2 has no record and the
amount 0 is below the existential deposit 10, yet `transfer` succeeds
(zero transfers are a no-op per the spec's own edge case) instead of
failing with the `ExistentialDeposit` error. -/
theorem new_account_floor_cex :
    stOne 2 = none ∧ 0 < cfgW.existentialDeposit ∧
    transfer cfgW stOne 1 2 0 = .ok stOne ∧
    transfer cfgW stOne 1 2 0 ≠ .error .ExistentialDeposit := by
  refine ⟨rfl, by decide, rfl, fun h => ?_⟩
  have h2 : transfer cfgW stOne 1 2 0 = .ok stOne := rfl
  rw [h2] at h
  exact Except.noConfusion h

/-- C6 (amended): for every transfer of a nonzero amount from a source
with sufficient free funds to a destination with no existing record, if
the amount is below the existential deposit the transfer fails with the
`ExistentialDeposit` error and both balances are unchanged. -/
theorem new_account_floor (c : Config) (s : Store) (a b : AccountId)
    (amt : Nat) (h0 : 0 < amt) (hfunds : amt ≤ free_balance s a)
    (hdest : s b = none) (hlt : amt < c.existentialDeposit) :
    transfer c s a b amt = .error .ExistentialDeposit ∧
    resultState s (transfer c s a b amt) = s := by
  have hz : ¬ amt = 0 := by omega
  cases hsa : s a with
  | none =>
    exfalso
    simp [free_balance, hsa] at hfunds
    omega
  | some src =>
    have hfree : amt ≤ src.free := by
      unfold free_balance at hfunds
      rw [hsa] at hfunds
      exact hfunds
    have h1 : transfer c s a b amt = .error .ExistentialDeposit := by
      unfold transfer
      rw [if_neg hz, hsa]
      show (if src.free < amt then _ else _) = _
      rw [if_neg (by omega : ¬ src.free < amt),
        if_pos ⟨by rw [hdest]; rfl, hlt⟩]
    exact ⟨h1, by rw [h1]; rfl⟩

/-- Witness for the amended C6 at a concrete input: the spec's
new-account-floor scenario — existential deposit 10, B nonexistent,
`transfer(A, B, 5)` fails with `ExistentialDeposit` and balances are
unchanged. -/
theorem new_account_floor_check :
    transfer cfgW stOne 1 2 5 = .error .ExistentialDeposit ∧
    resultState stOne (transfer cfgW stOne 1 2 5) = stOne :=
  new_account_floor cfgW stOne 1 2 5 (by decide) (by decide) rfl (by decide)

/-- C3: for every successful transfer between distinct accounts in which
the source is not reaped, value is conserved: the source's free balance
decreases by exactly the amount and the destination's increases by
exactly the amount. -/
theorem transfer_conservation (c : Config) (s : Store) (a b : AccountId)
    (amt : Nat) (s' : Store) (h : transfer c s a b amt = .ok s')
    (hab : a ≠ b) (hsrc : (s' a).isSome = true) :
    free_balance s a = free_balance s' a + amt ∧
    free_balance s' b = free_balance s b + amt := by
  by_cases hz : amt = 0
  · subst hz
    rw [transfer_zero_eq] at h
    have hs : s = s' := Except.ok.inj h
    subst hs
    omega
  · obtain ⟨src, hsa, hfree, hdest, hovf, hs'⟩ :=
      transfer_ok_inv c s a b amt s' hz h
    subst hs'
    by_cases hED :
        src.free - amt + src.reserved < c.existentialDeposit
    · rw [creditDebit_apply c s a b src amt hab a, if_pos rfl,
        if_pos hED] at hsrc
      exact absurd hsrc (by simp)
    · constructor
      · rw [free_balance_eq s a src hsa,
          free_balance_eq _ a ⟨src.free - amt, src.reserved⟩
            (by rw [creditDebit_apply c s a b src amt hab a, if_pos rfl,
              if_neg hED])]
        show src.free = src.free - amt + amt
        omega
      · rw [free_balance_eq _ b _
          (by rw [creditDebit_apply c s a b src amt hab b,
            if_neg (Ne.symm hab), if_pos rfl]), getD_free]

/-- Witness for C3 at a concrete input: in a store where accounts 1 and 2
each hold 100, a successful transfer of 30 debits 1 by exactly 30 and
credits 2 by exactly 30. -/
theorem transfer_conservation_check :
    free_balance stAll 1 =
      free_balance (resultState stAll (transfer cfgW stAll 1 2 30)) 1
        + 30 ∧
    free_balance (resultState stAll (transfer cfgW stAll 1 2 30)) 2 =
      free_balance stAll 2 + 30 :=
  transfer_conservation cfgW stAll 1 2 30
    (resultState stAll (transfer cfgW stAll 1 2 30)) rfl (by decide)
    (by decide)

/-- C4: for `transfer` and `force_transfer` with sufficient source funds,
when the debit leaves the source's total below the existential deposit
the operation still succeeds, the destination is credited exactly the
amount, the source account is removed (its free balance reads 0), and
the residual free balance is destroyed rather than returned. -/
theorem transfer_reaps_sub_existential_source (c : Config) (s : Store)
    (a b : AccountId) (amt : Nat) (src : BalanceRecord)
    (hab : a ≠ b) (h0 : 0 < amt) (hsa : s a = some src)
    (hfree : amt ≤ src.free)
    (hreap : src.free - amt + src.reserved < c.existentialDeposit)
    (hdest : s b = none → c.existentialDeposit ≤ amt)
    (hovf : free_balance s b + amt ≤ c.maxBalance) :
    ∃ s', transfer c s a b amt = .ok s' ∧
      force_transfer c s a b amt = .ok s' ∧
      s' a = none ∧ free_balance s' a = 0 ∧
      free_balance s' b = free_balance s b + amt := by
  have hz : amt ≠ 0 := by omega
  have hok := transfer_ok_eq c s a b amt src hz hsa hfree hdest hovf
  have ha : creditDebit c s a b src amt a = none := by
    rw [creditDebit_apply c s a b src amt hab a, if_pos rfl, if_pos hreap]
  refine ⟨creditDebit c s a b src amt, hok, hok, ha,
    free_balance_none _ a ha, ?_⟩
  rw [free_balance_eq _ b _
    (by rw [creditDebit_apply c s a b src amt hab b,
      if_neg (Ne.symm hab), if_pos rfl]), getD_free]

/-- Witness for C4 at a concrete input: the spec's reap-on-transfer
scenario — existential deposit 10, account 1 holds 100 free, transferring
91 to the nonexistent account 2 succeeds, reaps account 1 (destroying its
residual 9) and credits account 2 with exactly 91. -/
theorem transfer_reaps_sub_existential_source_check :
    ∃ s', transfer cfgW stOne 1 2 91 = .ok s' ∧
      force_transfer cfgW stOne 1 2 91 = .ok s' ∧
      s' 1 = none ∧ free_balance s' 1 = 0 ∧
      free_balance s' 2 = free_balance stOne 2 + 91 :=
  transfer_reaps_sub_existential_source cfgW stOne 1 2 91 ⟨100, 0⟩
    (by decide) (by decide) rfl (by decide) (by decide)
    (fun _ => by decide) (by decide)

/-- C10: a sender holding the maximum representable balance can transfer
ten existential deposits to an existing destination holding exactly the
existential deposit: the transfer succeeds without `Overflow` and
afterwards both accounts still exist with nonzero free balance. -/
theorem transfer_best_case (c : Config) (s : Store) (a b : AccountId)
    (hab : a ≠ b) (hED : 0 < c.existentialDeposit)
    (hmax : 11 * c.existentialDeposit ≤ c.maxBalance)
    (hsa : s a = some { free := c.maxBalance, reserved := 0 })
    (hsb : s b = some { free := c.existentialDeposit, reserved := 0 }) :
    ∃ s', transfer c s a b (10 * c.existentialDeposit) = .ok s' ∧
      (s' a).isSome = true ∧ (s' b).isSome = true ∧
      0 < free_balance s' a ∧ 0 < free_balance s' b := by
  have hz : 10 * c.existentialDeposit ≠ 0 := by omega
  have hfb : free_balance s b = c.existentialDeposit :=
    free_balance_eq s b _ hsb
  have hok := transfer_ok_eq c s a b (10 * c.existentialDeposit)
    { free := c.maxBalance, reserved := 0 } hz hsa
    (by show 10 * c.existentialDeposit ≤ c.maxBalance; omega)
    (fun hb => by rw [hsb] at hb; exact Option.noConfusion hb)
    (by omega)
  have hnr : ¬ (({ free := c.maxBalance, reserved := 0 } :
      BalanceRecord).free - 10 * c.existentialDeposit +
      ({ free := c.maxBalance, reserved := 0 } :
        BalanceRecord).reserved < c.existentialDeposit) := by
    show ¬ (c.maxBalance - 10 * c.existentialDeposit + 0 <
      c.existentialDeposit)
    omega
  have ha : creditDebit c s a b { free := c.maxBalance, reserved := 0 }
      (10 * c.existentialDeposit) a =
      some { free := c.maxBalance - 10 * c.existentialDeposit,
             reserved := 0 } := by
    rw [creditDebit_apply c s a b _ _ hab a, if_pos rfl, if_neg hnr]
  have hb2 : creditDebit c s a b { free := c.maxBalance, reserved := 0 }
      (10 * c.existentialDeposit) b =
      some { free := ((s b).getD { free := 0, reserved := 0 }).free +
               10 * c.existentialDeposit,
             reserved :=
               ((s b).getD { free := 0, reserved := 0 }).reserved } := by
    rw [creditDebit_apply c s a b _ _ hab b, if_neg (Ne.symm hab),
      if_pos rfl]
  refine ⟨_, hok, ?_, ?_, ?_, ?_⟩
  · rw [ha]
    rfl
  · rw [hb2]
    rfl
  · rw [free_balance_eq _ a _ ha]
    show 0 < c.maxBalance - 10 * c.existentialDeposit
    omega
  · rw [free_balance_eq _ b _ hb2]
    show 0 < ((s b).getD { free := 0, reserved := 0 }).free +
      10 * c.existentialDeposit
    omega

/-- Witness for C10 at a concrete input: the benchmark setup with
maximum balance 1000000, existential deposit 10, sender 1 at the maximum
and recipient 2 at the existential deposit; the transfer of 100 succeeds
and both accounts survive with nonzero free balance. -/
theorem transfer_best_case_check :
    ∃ s', transfer cfgW stBest 1 2 (10 * cfgW.existentialDeposit) =
        .ok s' ∧
      (s' 1).isSome = true ∧ (s' 2).isSome = true ∧
      0 < free_balance s' 1 ∧ 0 < free_balance s' 2 :=
  transfer_best_case cfgW stBest 1 2 (by decide) (by decide) (by decide)
    rfl rfl

/-- Inversion of a successful nonzero `transfer_keep_alive`: all
validation passed — including the keep-alive guard — and the result is
the committed mutation. -/
theorem transfer_keep_alive_ok_inv (c : Config) (s : Store)
    (a b : AccountId) (amt : Nat) (s' : Store) (hz : amt ≠ 0)
    (h : transfer_keep_alive c s a b amt = .ok s') :
    ∃ src, s a = some src ∧ amt ≤ src.free ∧
      c.existentialDeposit ≤ src.free - amt + src.reserved ∧
      (s b = none → c.existentialDeposit ≤ amt) ∧
      free_balance s b + amt ≤ c.maxBalance ∧
      s' = creditDebit c s a b src amt := by
  unfold transfer_keep_alive at h
  rw [if_neg hz] at h
  split at h
  · exact absurd h (by simp)
  · rename_i src hsa
    split at h
    · exact absurd h (by simp)
    · rename_i hfree
      split at h
      · exact absurd h (by simp)
      · rename_i hka
        split at h
        · exact absurd h (by simp)
        · rename_i hdest
          split at h
          · exact absurd h (by simp)
          · rename_i hovf
            refine ⟨src, hsa, by omega, by omega, ?_, by omega,
              (Except.ok.inj h).symm⟩
            intro hb
            by_contra hcon
            exact hdest ⟨by rw [hb]; rfl, by omega⟩

/-- C5: `transfer_keep_alive` fails with `KeepAlive` — leaving the state
unchanged — exactly when a feasible debit would leave the source's total
below the existential deposit; otherwise it behaves identically to
`transfer`; and a successful call never removes the source's account. -/
theorem transfer_keep_alive_spec (c : Config) (s : Store)
    (a b : AccountId) (amt : Nat) :
    ((∃ src, s a = some src ∧ amt ≤ src.free ∧ 0 < amt ∧
        src.free - amt + src.reserved < c.existentialDeposit) →
      transfer_keep_alive c s a b amt = .error .KeepAlive ∧
      resultState s (transfer_keep_alive c s a b amt) = s) ∧
    ((∀ src, s a = some src → amt ≤ src.free → 0 < amt →
        c.existentialDeposit ≤ src.free - amt + src.reserved) →
      transfer_keep_alive c s a b amt = transfer c s a b amt) ∧
    (∀ s', transfer_keep_alive c s a b amt = .ok s' →
      ∀ r, s a = some r → (s' a).isSome = true) := by
  refine ⟨?_, ?_, ?_⟩
  · rintro ⟨src, hsa, hfree, h0, hka⟩
    have h1 : transfer_keep_alive c s a b amt = .error .KeepAlive := by
      unfold transfer_keep_alive
      rw [if_neg (by omega : ¬ amt = 0), hsa]
      show (if src.free < amt then _ else _) = _
      rw [if_neg (by omega : ¬ src.free < amt), if_pos hka]
    exact ⟨h1, by rw [h1]; rfl⟩
  · intro hno
    by_cases hz : amt = 0
    · subst hz
      rfl
    · cases hsa : s a with
      | none => simp [transfer_keep_alive, transfer, hz, hsa]
      | some src =>
        by_cases hlt : src.free < amt
        · simp [transfer_keep_alive, transfer, hz, hsa, hlt]
        · have hge : c.existentialDeposit ≤
              src.free - amt + src.reserved :=
            hno src hsa (by omega) (by omega)
          simp [transfer_keep_alive, transfer, hz, hsa, hlt,
            Nat.not_lt.mpr hge]
  · intro s' h r hsa
    by_cases hz : amt = 0
    · subst hz
      have hs : s = s' := Except.ok.inj h
      subst hs
      rw [hsa]
      rfl
    · obtain ⟨src, hsa2, hfree, hka, hdest, hovf, hs'⟩ :=
        transfer_keep_alive_ok_inv c s a b amt s' hz h
      subst hs'
      by_cases hab : a = b
      · subst hab
        rw [creditDebit_apply_self c s a src amt hfree a, if_pos rfl,
          if_neg (by omega : ¬ src.free + src.reserved <
            c.existentialDeposit)]
        rfl
      · rw [creditDebit_apply c s a b src amt hab a, if_pos rfl,
          if_neg (by omega : ¬ src.free - amt + src.reserved <
            c.existentialDeposit)]
        rfl

/-- Witness for C5 at a concrete input: in a store where every account
holds 100 free with existential deposit 10, a keep-alive transfer of 95
would leave the sender at 5, so it fails with `KeepAlive`. -/
theorem transfer_keep_alive_spec_check :
    transfer_keep_alive cfgW stAll 1 2 95 = .error .KeepAlive :=
  ((transfer_keep_alive_spec cfgW stAll 1 2 95).1
    ⟨⟨100, 0⟩, rfl, by decide, by decide, by decide⟩).1

/-- The committed mutation phase preserves the existential-deposit
invariant: the credited destination meets the floor (it existed with the
floor before, or the amount alone covers the floor for a fresh record)
and the debited origin is reaped when it falls below the floor. -/
theorem creditDebit_invariant (c : Config) (s : Store) (a b : AccountId)
    (src : BalanceRecord) (amt : Nat) (hinv : InvariantHolds c s)
    (hsa : s a = some src) (hfree : amt ≤ src.free)
    (hdest : s b = none → c.existentialDeposit ≤ amt) :
    InvariantHolds c (creditDebit c s a b src amt) := by
  intro id r h
  by_cases hab : a = b
  · subst hab
    rw [creditDebit_apply_self c s a src amt hfree id] at h
    by_cases hid : id = a
    · rw [if_pos hid] at h
      by_cases hlt : src.free + src.reserved < c.existentialDeposit
      · rw [if_pos hlt] at h
        exact Option.noConfusion h
      · rw [if_neg hlt] at h
        injection h with h2
        subst h2
        exact Nat.not_lt.mp hlt
    · rw [if_neg hid] at h
      exact hinv id r h
  · rw [creditDebit_apply c s a b src amt hab id] at h
    by_cases hid : id = a
    · rw [if_pos hid] at h
      by_cases hlt : src.free - amt + src.reserved < c.existentialDeposit
      · rw [if_pos hlt] at h
        exact Option.noConfusion h
      · rw [if_neg hlt] at h
        injection h with h2
        subst h2
        exact Nat.not_lt.mp hlt
    · rw [if_neg hid] at h
      by_cases hjb : id = b
      · rw [if_pos hjb] at h
        injection h with h2
        subst h2
        cases hsb : s b with
        | none =>
          have hamt := hdest hsb
          simp only [Option.getD_none]
          omega
        | some d =>
          have hd := hinv b d hsb
          simp only [Option.getD_some]
          omega
      · rw [if_neg hjb] at h
        exact hinv id r h

/-- A successful `transfer` preserves the existential-deposit invariant. -/
theorem transfer_preserves_invariant (c : Config) (s : Store)
    (a b : AccountId) (amt : Nat) (s' : Store)
    (hinv : InvariantHolds c s) (h : transfer c s a b amt = .ok s') :
    InvariantHolds c s' := by
  by_cases hz : amt = 0
  · subst hz
    rw [transfer_zero_eq] at h
    have hs : s = s' := Except.ok.inj h
    subst hs
    exact hinv
  · obtain ⟨src, hsa, hfree, hdest, hovf, hs'⟩ :=
      transfer_ok_inv c s a b amt s' hz h
    subst hs'
    exact creditDebit_invariant c s a b src amt hinv hsa hfree hdest

/-- A successful `transfer_keep_alive` preserves the existential-deposit
invariant. -/
theorem transfer_keep_alive_preserves_invariant (c : Config) (s : Store)
    (a b : AccountId) (amt : Nat) (s' : Store)
    (hinv : InvariantHolds c s)
    (h : transfer_keep_alive c s a b amt = .ok s') :
    InvariantHolds c s' := by
  by_cases hz : amt = 0
  · subst hz
    have hs : s = s' := Except.ok.inj h
    subst hs
    exact hinv
  · obtain ⟨src, hsa, hfree, hka, hdest, hovf, hs'⟩ :=
      transfer_keep_alive_ok_inv c s a b amt s' hz h
    subst hs'
    exact creditDebit_invariant c s a b src amt hinv hsa hfree hdest

/-- A `set_balance` call preserves the existential-deposit invariant. -/
theorem set_balance_preserves_invariant (c : Config) (s : Store)
    (who : AccountId) (nf nr : Nat) (s' : Store)
    (hinv : InvariantHolds c s) (h : set_balance c s who nf nr = .ok s') :
    InvariantHolds c s' := by
  obtain ⟨s2, h1, h2, h3, h4⟩ := set_balance_result c s who nf nr
  rw [h1] at h
  have hs : s2 = s' := Except.ok.inj h
  subst hs
  intro id r hid
  by_cases hw : id = who
  · subst hw
    by_cases hlt : nf + nr < c.existentialDeposit
    · rw [h3 hlt] at hid
      exact Option.noConfusion hid
    · rw [h2 (Nat.not_lt.mp hlt)] at hid
      injection hid with h5
      subst h5
      exact Nat.not_lt.mp hlt
  · rw [h4 id hw] at hid
    exact hinv id r hid

/-- C1: every operation preserves the existential floor — starting from a
store in which every existing account meets the existential deposit, any
completed `transfer`, `transfer_keep_alive`, `force_transfer` or
`set_balance` yields a store in which every existing account still has
`free + reserved` at least the existential deposit (a sub-existential
origin is reaped within the operation). -/
theorem existential_floor (c : Config) (s : Store)
    (hinv : InvariantHolds c s) :
    (∀ a b amt s', transfer c s a b amt = .ok s' →
      InvariantHolds c s') ∧
    (∀ a b amt s', transfer_keep_alive c s a b amt = .ok s' →
      InvariantHolds c s') ∧
    (∀ a b amt s', force_transfer c s a b amt = .ok s' →
      InvariantHolds c s') ∧
    (∀ who nf nr s', set_balance c s who nf nr = .ok s' →
      InvariantHolds c s') :=
  ⟨fun a b amt s' h => transfer_preserves_invariant c s a b amt s' hinv h,
   fun a b amt s' h =>
     transfer_keep_alive_preserves_invariant c s a b amt s' hinv h,
   fun a b amt s' h => transfer_preserves_invariant c s a b amt s' hinv h,
   fun who nf nr s' h =>
     set_balance_preserves_invariant c s who nf nr s' hinv h⟩

/-- Witness for C1 at a concrete input: every account of the concrete
store meets the floor, and after the reaping transfer of 91 from account
1 the resulting store still satisfies the invariant. -/
theorem existential_floor_check :
    ∃ s', transfer cfgW stAll 1 2 91 = .ok s' ∧
      InvariantHolds cfgW s' := by
  refine ⟨_, rfl, (existential_floor cfgW stAll ?_).1 1 2 91 _ rfl⟩
  intro id r hid
  have h2 : some ({ free := 100, reserved := 0 } : BalanceRecord) =
      some r := hid
  injection h2 with h3
  subst h3
  decide

end CalcuBalances
